/-
  Verification of the monochrome audio-cache backend.

  This file gives a shallow embedding, in Lean 4, of the pure logic of the
  backend's core pipeline — the multi-instance failover HTTP client
  (api-service), the DASH segment planner (dash-downloader), the persistent
  file cache with self-healing invalidation (cache-service), the download
  orchestrator with its in-flight dedup ledger (download-service), and the
  HTTP byte-range parser (stream route) — and proves or refutes the spec's
  claims about them.

  Conventions of the embedding:
  * JavaScript strings are Lean `String`s; character-level work goes through
    `String.data` (a `List Char`) so that concrete computations reduce fast.
  * JavaScript numbers are `Int` (or `ℚ` where division occurs); all the
    inputs exercised here are small enough that IEEE-754 doubles represent
    the arithmetic exactly, so exact arithmetic is a faithful model.
  * `undefined` is `Option.none`; fallible code returns `Option`/`Except`.
  * Asynchronous effects (network, filesystem, database) are passed in as
    explicit environments (functions / records of outcomes).
-/
import Mathlib

namespace Monochrome

/-- Decidable equality for `Except`, so concrete runs of the fallible
models can be checked by `decide`. -/
instance {ε α : Type} [DecidableEq ε] [DecidableEq α] :
    DecidableEq (Except ε α) := fun x y =>
  match x, y with
  | Except.ok a, Except.ok b =>
    if h : a = b then isTrue (by rw [h]) else isFalse (by simp [h])
  | Except.error e, Except.error f =>
    if h : e = f then isTrue (by rw [h]) else isFalse (by simp [h])
  | Except.ok _, Except.error _ => isFalse (by simp)
  | Except.error _, Except.ok _ => isFalse (by simp)

/-! ## JavaScript string and number primitives -/

/-- The whitespace characters relevant to JavaScript's `\s` / `trim` for the
inputs in this development (ASCII whitespace). -/
def jsWhitespace (c : Char) : Bool :=
  c = ' ' || c = '\t' || c = '\n' || c = '\r' || c = '\x0b' || c = '\x0c'

/-- JavaScript `String.prototype.trim`: drop whitespace at both ends. -/
def listTrim (cs : List Char) : List Char :=
  ((cs.dropWhile jsWhitespace).reverse.dropWhile jsWhitespace).reverse

/-- `s.trim()` on a JS string. -/
def jsTrim (s : String) : String := ⟨listTrim s.data⟩

/-- Numeric value of a nonempty list of decimal digits (the regex groups that
reach `Number.parseInt` below are all-digit strings, so no NaN case arises). -/
def digitsToInt (ds : List Char) : Int :=
  ds.foldl (fun acc c => acc * 10 + (c.toNat - '0'.toNat : Int)) 0

/-- Strip a literal character sequence off the front of a list, or fail. -/
def stripLit : List Char → List Char → Option (List Char)
  | [], cs => some cs
  | _ :: _, [] => none
  | p :: ps, c :: cs => if c = p then stripLit ps cs else none

/-! ## Range-header parsing (`parseRangeHeader` in the stream route)

The route matches the header against the regex `/bytes=(\d*)-(\d*)/`:
the first position at which the literal `bytes=` is followed by a
(possibly empty) run of digits, a `-`, and a (possibly empty) run of
digits. -/

/-- Try to match `(\d*)-(\d*)` at the start of `cs`, returning the two
digit groups. -/
def rangeGroupsAt (cs : List Char) : Option (List Char × List Char) :=
  let ds := cs.takeWhile Char.isDigit
  match cs.drop ds.length with
  | '-' :: rest => some (ds, rest.takeWhile Char.isDigit)
  | _ => none

/-- Left-to-right scan for the first match of `bytes=(\d*)-(\d*)`. -/
def findRangeMatch : List Char → Option (List Char × List Char)
  | [] => none
  | c :: cs =>
    match stripLit "bytes=".data (c :: cs) with
    | some rest =>
      match rangeGroupsAt rest with
      | some groups => some groups
      | none => findRangeMatch cs
    | none => findRangeMatch cs

/-- `parseRangeHeader(rangeHeader, totalSize)` from the stream route:
returns the satisfiable `{start, end}` pair or `null`. -/
def parseRangeHeader (rangeHeader : String) (totalSize : Int) :
    Option (Int × Int) :=
  match findRangeMatch rangeHeader.data with
  | none => none
  | some (startStr, endStr) =>
    if startStr.isEmpty && endStr.isEmpty then none
    else
      let pair : Option (Int × Int) :=
        if startStr.isEmpty then
          -- suffix form `-N`
          let suffixLength := digitsToInt endStr
          some (max (totalSize - suffixLength) 0, totalSize - 1)
        else
          let start := digitsToInt startStr
          let e := if endStr.isEmpty then totalSize - 1 else digitsToInt endStr
          if start ≥ totalSize then none
          else some (start, min e (totalSize - 1))
      match pair with
      | none => none
      | some (s, e) => if s > e then none else some (s, e)

/-- The observable response of `streamFile`'s range branch: a 416 with
`Content-Range: bytes */size`, or a 206 with the exact span headers. -/
inductive RangeResponse
  | unsatisfiable (contentRange : String)
  | ranged (rangeStart rangeEnd : Int) (contentRange : String)
      (contentLength : Int)
  deriving DecidableEq, Repr

/-- The response `streamFile` computes when a `Range` header is present. -/
def rangeResponse (rangeHeader : String) (totalSize : Int) : RangeResponse :=
  match parseRangeHeader rangeHeader totalSize with
  | none => RangeResponse.unsatisfiable ("bytes */" ++ toString totalSize)
  | some (s, e) =>
    RangeResponse.ranged s e
      ("bytes " ++ toString s ++ "-" ++ toString e ++ "/" ++ toString totalSize)
      (e - s + 1)

/-! ### Regex-match lemmas for `bytes=(\d*)-(\d*)` -/

theorem takeWhile_all_append (p : Char → Bool) (a : List Char) (x : Char)
    (rest : List Char) (ha : ∀ c ∈ a, p c = true) (hx : p x = false) :
    (a ++ x :: rest).takeWhile p = a := by
  induction a with
  | nil => simp [List.takeWhile_cons, hx]
  | cons c cs ih =>
    have hc : p c = true := ha c (by simp)
    simp only [List.cons_append, List.takeWhile_cons, hc, if_true]
    exact congrArg (c :: ·) (ih fun y hy => ha y (by simp [hy]))

theorem takeWhile_digits_append (a rest : List Char)
    (ha : ∀ c ∈ a, c.isDigit = true) :
    (a ++ '-' :: rest).takeWhile Char.isDigit = a :=
  takeWhile_all_append Char.isDigit a '-' rest ha rfl

theorem rangeGroupsAt_lit (a b : List Char) (ha : ∀ c ∈ a, c.isDigit = true)
    (hb : ∀ c ∈ b, c.isDigit = true) :
    rangeGroupsAt (a ++ '-' :: b) = some (a, b) := by
  have h1 : (a ++ '-' :: b).takeWhile Char.isDigit = a :=
    takeWhile_digits_append a b ha
  have h2 : (a ++ '-' :: b).drop a.length = '-' :: b :=
    List.drop_left a ('-' :: b)
  simp [rangeGroupsAt, h1, h2, List.takeWhile_eq_self_iff.mpr hb]

theorem stripLit_append (p cs : List Char) : stripLit p (p ++ cs) = some cs := by
  induction p with
  | nil => rfl
  | cons x xs ih => simp [stripLit, ih]

theorem findRangeMatch_lit (a b : List Char) (ha : ∀ c ∈ a, c.isDigit = true)
    (hb : ∀ c ∈ b, c.isDigit = true) :
    findRangeMatch ("bytes=".data ++ (a ++ '-' :: b)) = some (a, b) := by
  have key : stripLit "bytes=".data ("bytes=".data ++ (a ++ '-' :: b)) =
      some (a ++ '-' :: b) := stripLit_append _ _
  have hcons : "bytes=".data ++ (a ++ '-' :: b) =
      'b' :: ("ytes=".data ++ (a ++ '-' :: b)) := rfl
  rw [hcons] at key ⊢
  simp only [findRangeMatch, key, rangeGroupsAt_lit a b ha hb]

/-! ## DASH segment planning (`DashDownloader.downloadDashStream`)

`downloadDashStream` reads the first Representation's SegmentTemplate and
derives a segment plan: a start number and a segment count.  Attribute
values arrive as strings and go through JavaScript `parseInt`; a `NaN`
result is modelled as `Option.none` and propagates exactly as `NaN` does
through the sums below. -/

/-- JavaScript `parseInt(s)` (decimal): skip leading whitespace, optional
sign, then the longest decimal-digit prefix; `none` models `NaN`. -/
def parseIntJS (s : String) : Option Int :=
  match s.data.dropWhile jsWhitespace with
  | '-' :: rest =>
    let ds := rest.takeWhile Char.isDigit
    if ds.isEmpty then none else some (-(digitsToInt ds))
  | '+' :: rest =>
    let ds := rest.takeWhile Char.isDigit
    if ds.isEmpty then none else some (digitsToInt ds)
  | rest =>
    let ds := rest.takeWhile Char.isDigit
    if ds.isEmpty then none else some (digitsToInt ds)

/-- Try to match the regex tail `(\d+(\.\d+)?)S` at the start of `cs`
(the part of `/PT(\d+(?:\.\d+)?)S/` after the literal `PT`), returning the
seconds value.  Digit runs are maximal and `S`/`.` are not digits, so no
regex backtracking can produce a different match. -/
def durationNumberAt (cs : List Char) : Option ℚ :=
  let intDigits := cs.takeWhile Char.isDigit
  if intDigits.isEmpty then none
  else
    match cs.drop intDigits.length with
    | '.' :: rest =>
      let fracDigits := rest.takeWhile Char.isDigit
      if fracDigits.isEmpty then none
      else
        match rest.drop fracDigits.length with
        | 'S' :: _ =>
          some ((digitsToInt intDigits : ℚ) +
            (digitsToInt fracDigits : ℚ) / ((10 : ℚ) ^ fracDigits.length))
        | _ => none
    | 'S' :: _ => some ((digitsToInt intDigits : ℚ))
    | _ => none

/-- Left-to-right scan for the first match of `/PT(\d+(?:\.\d+)?)S/`. -/
def findDurationMatch : List Char → Option ℚ
  | [] => none
  | c :: cs =>
    match stripLit "PT".data (c :: cs) with
    | some rest =>
      match durationNumberAt rest with
      | some q => some q
      | none => findDurationMatch cs
    | none => findDurationMatch cs

/-- `parseDuration` from dash-downloader.js: parse an ISO-8601 duration such
as `PT300.096S`; any string without a match yields the 300-second default. -/
def parseDuration (duration : String) : ℚ :=
  (findDurationMatch duration.data).getD 300

/-- One `<S>` entry of a SegmentTimeline; the downloader reads only its
`@_r` (repeat) attribute, `@_d` is carried along but unused for counting. -/
structure TimelineEntry where
  d : Option String := none
  r : Option String := none

/-- The SegmentTemplate attributes consulted by `downloadDashStream`.
`timelineS` is `SegmentTimeline.S` wrapped into a list (the source wraps a
single entry in an array); it is `none` when the SegmentTimeline element or
its `S` member is missing, matching `segmentTimeline && segmentTimeline.S`. -/
structure SegmentTemplateModel where
  media : Option String := none
  startNumber : Option String := none
  timelineS : Option (List TimelineEntry) := none
  duration : Option String := none
  timescale : Option String := none

/-- Segment-count derivation of `downloadDashStream`.  `Except.error` is the
thrown `Cannot determine segment count`; the inner `Option` is `NaN`
propagation through the timeline sum (an unparseable `@_r` turns the whole
JavaScript sum into `NaN`).  In the estimate branch an unparseable or zero
timescale makes the JavaScript quotient collapse to a count of 0, which the
`Option.getD 0 : Int` coercion reproduces. -/
def segmentCountOf (st : SegmentTemplateModel)
    (mediaPresentationDuration : Option String) : Except String (Option Int) :=
  match st.timelineS with
  | some entries =>
    Except.ok (entries.foldl
      (fun acc s =>
        match acc, parseIntJS ((s.r).getD "0") with
        | some t, some rv => some (t + 1 + rv)
        | _, _ => none)
      (some 0))
  | none =>
    match parseIntJS ((st.duration).getD "0") with
    | some d =>
      if d ≠ 0 then
        let timescale : Int := (parseIntJS ((st.timescale).getD "1")).getD 0
        let seconds : ℚ :=
          parseDuration (mediaPresentationDuration.getD "PT300S")
        let segmentDuration : ℚ := (d : ℚ) / (timescale : ℚ)
        Except.ok (some ⌈seconds / segmentDuration⌉)
      else Except.error "Cannot determine segment count"
    | none => Except.error "Cannot determine segment count"

/-- `parseInt(segmentTemplate['@_startNumber'] || '0')`. -/
def startNumberOf (st : SegmentTemplateModel) : Option Int :=
  parseIntJS ((st.startNumber).getD "0")

/-- The segment numbers the media loop substitutes for `$Number$`:
`startNumber + i` for `i` in `0 .. segmentCount - 1` (`none` is a `NaN`
start number; a `NaN` or negative count runs the loop zero times). -/
def mediaSegmentNumbers (startNumber : Option Int)
    (segmentCount : Option Int) : List (Option Int) :=
  match segmentCount with
  | some n => (List.range n.toNat).map (fun i => startNumber.map (· + (i : Int)))
  | none => []

/-- The media-segment numbers requested for a template, after the count
derivation. -/
def mediaRequestNumbers (st : SegmentTemplateModel)
    (mediaPresentationDuration : Option String) : Except String (List (Option Int)) :=
  (segmentCountOf st mediaPresentationDuration).map
    (fun cnt => mediaSegmentNumbers (startNumberOf st) cnt)

/-- The header string `bytes=<a>-<b>` built from two raw digit groups. -/
def rangeHeaderOf (a b : List Char) : String :=
  ⟨"bytes=".data ++ (a ++ '-' :: b)⟩

theorem parseRange_both_chars (S : Int) (a b : List Char) (hane : a ≠ [])
    (hbne : b ≠ []) (ha : ∀ c ∈ a, c.isDigit = true)
    (hb : ∀ c ∈ b, c.isDigit = true) :
    parseRangeHeader (rangeHeaderOf a b) S =
      if digitsToInt a ≥ S then none
      else if digitsToInt a > min (digitsToInt b) (S - 1) then none
      else some (digitsToInt a, min (digitsToInt b) (S - 1)) := by
  obtain ⟨c, cs, rfl⟩ : ∃ c cs, a = c :: cs := by
    cases a with
    | nil => exact absurd rfl hane
    | cons c cs => exact ⟨c, cs, rfl⟩
  obtain ⟨d, ds, rfl⟩ : ∃ d ds, b = d :: ds := by
    cases b with
    | nil => exact absurd rfl hbne
    | cons d ds => exact ⟨d, ds, rfl⟩
  unfold parseRangeHeader rangeHeaderOf
  rw [show (⟨"bytes=".data ++ (c :: cs ++ '-' :: (d :: ds))⟩ : String).data =
      "bytes=".data ++ (c :: cs ++ '-' :: (d :: ds)) from rfl]
  rw [findRangeMatch_lit _ _ ha hb]
  by_cases h1 : digitsToInt (c :: cs) ≥ S
  · simp [List.isEmpty, h1]
  · by_cases h2 : digitsToInt (c :: cs) > min (digitsToInt (d :: ds)) (S - 1)
    · simp [List.isEmpty, h1, h2]
    · simp [List.isEmpty, h1, h2]

theorem parseRange_openEnd_chars (S : Int) (a : List Char) (hane : a ≠ [])
    (ha : ∀ c ∈ a, c.isDigit = true) :
    parseRangeHeader (rangeHeaderOf a []) S =
      if digitsToInt a ≥ S then none
      else some (digitsToInt a, S - 1) := by
  obtain ⟨c, cs, rfl⟩ : ∃ c cs, a = c :: cs := by
    cases a with
    | nil => exact absurd rfl hane
    | cons c cs => exact ⟨c, cs, rfl⟩
  unfold parseRangeHeader rangeHeaderOf
  rw [show (⟨"bytes=".data ++ (c :: cs ++ '-' :: ([] : List Char))⟩ : String).data =
      "bytes=".data ++ (c :: cs ++ '-' :: []) from rfl]
  rw [findRangeMatch_lit _ _ ha (by simp)]
  by_cases h1 : digitsToInt (c :: cs) ≥ S
  · simp [List.isEmpty, h1]
  · have h2 : ¬ digitsToInt (c :: cs) > S - 1 := by omega
    simp [List.isEmpty, h1, h2]

theorem parseRange_suffix_chars (S : Int) (b : List Char) (hbne : b ≠ [])
    (hb : ∀ c ∈ b, c.isDigit = true) :
    parseRangeHeader (rangeHeaderOf [] b) S =
      if max (S - digitsToInt b) 0 > S - 1 then none
      else some (max (S - digitsToInt b) 0, S - 1) := by
  obtain ⟨d, ds, rfl⟩ : ∃ d ds, b = d :: ds := by
    cases b with
    | nil => exact absurd rfl hbne
    | cons d ds => exact ⟨d, ds, rfl⟩
  unfold parseRangeHeader rangeHeaderOf
  rw [show (⟨"bytes=".data ++ (([] : List Char) ++ '-' :: (d :: ds))⟩ : String).data =
      "bytes=".data ++ ([] ++ '-' :: (d :: ds)) from rfl]
  rw [findRangeMatch_lit _ _ (by simp) hb]
  by_cases h1 : max (S - digitsToInt (d :: ds)) 0 > S - 1
  · simp [List.isEmpty, h1]
  · simp [List.isEmpty, h1]

/-- C6: Range-header parsing over a resource of size `S`: `bytes=A-B` with
both fields present yields `start = A, end = min(B, S-1)`; `bytes=A-` yields
`start = A, end = S-1`; the suffix form `bytes=-N` yields
`start = max(S-N, 0), end = S-1`; non-numeric fields, `start ≥ S`, or
`start > end` produce an unsatisfiable result answered with 416 and
`Content-Range: bytes */S`.  Over a 1000-byte resource: `bytes=0-499` gives
`(0,499)`, `bytes=-100` gives `(900,999)`, `bytes=950-2000` gives
`(950,999)`, and `bytes=2000-2100` is unsatisfiable. -/
theorem range_header_semantics :
    (∀ (S : Int) (a b : List Char), a ≠ [] → b ≠ [] →
      (∀ c ∈ a, c.isDigit = true) → (∀ c ∈ b, c.isDigit = true) →
      parseRangeHeader (rangeHeaderOf a b) S =
        if digitsToInt a ≥ S then none
        else if digitsToInt a > min (digitsToInt b) (S - 1) then none
        else some (digitsToInt a, min (digitsToInt b) (S - 1))) ∧
    (∀ (S : Int) (a : List Char), a ≠ [] → (∀ c ∈ a, c.isDigit = true) →
      parseRangeHeader (rangeHeaderOf a []) S =
        if digitsToInt a ≥ S then none
        else some (digitsToInt a, S - 1)) ∧
    (∀ (S : Int) (b : List Char), b ≠ [] → (∀ c ∈ b, c.isDigit = true) →
      parseRangeHeader (rangeHeaderOf [] b) S =
        if max (S - digitsToInt b) 0 > S - 1 then none
        else some (max (S - digitsToInt b) 0, S - 1)) ∧
    (∀ (S : Int) (header : String), parseRangeHeader header S = none →
      rangeResponse header S =
        RangeResponse.unsatisfiable ("bytes */" ++ toString S)) ∧
    parseRangeHeader "bytes=0-499" 1000 = some (0, 499) ∧
    parseRangeHeader "bytes=-100" 1000 = some (900, 999) ∧
    parseRangeHeader "bytes=950-2000" 1000 = some (950, 999) ∧
    parseRangeHeader "bytes=2000-2100" 1000 = none ∧
    rangeResponse "bytes=2000-2100" 1000 =
      RangeResponse.unsatisfiable "bytes */1000" ∧
    parseRangeHeader "bytes=abc-def" 1000 = none := by
  refine ⟨parseRange_both_chars, parseRange_openEnd_chars,
    parseRange_suffix_chars, ?_, by decide, by decide, by decide, by decide,
    by decide, by decide⟩
  intro S header h
  unfold rangeResponse
  rw [h]

/-- Witness for C6: the general `bytes=A-B` characterization applied at the
concrete header `bytes=950-2000` over a 1000-byte resource. -/
theorem range_header_semantics_witness :
    parseRangeHeader (rangeHeaderOf ['9', '5', '0'] ['2', '0', '0', '0']) 1000 =
      some (950, 999) := by
  have h := range_header_semantics.1 1000 ['9', '5', '0'] ['2', '0', '0', '0']
    (by decide) (by decide) (by decide) (by decide)
  rw [h]
  decide

/-! ### DASH segment-count lemmas -/

theorem durationNumberAt_digits (ds rest : List Char) (hne : ds ≠ [])
    (hd : ∀ c ∈ ds, c.isDigit = true) :
    durationNumberAt (ds ++ 'S' :: rest) = some ((digitsToInt ds : ℚ)) := by
  have h1 : (ds ++ 'S' :: rest).takeWhile Char.isDigit = ds :=
    takeWhile_all_append Char.isDigit ds 'S' rest hd rfl
  have h2 : (ds ++ 'S' :: rest).drop ds.length = 'S' :: rest :=
    List.drop_left ds ('S' :: rest)
  have h3 : ds.isEmpty = false := by
    cases ds with
    | nil => exact absurd rfl hne
    | cons c cs => rfl
  simp [durationNumberAt, h1, h2, h3]

theorem findDurationMatch_lit (ds rest : List Char) (hne : ds ≠ [])
    (hd : ∀ c ∈ ds, c.isDigit = true) :
    findDurationMatch ("PT".data ++ (ds ++ 'S' :: rest)) =
      some ((digitsToInt ds : ℚ)) := by
  have key : stripLit "PT".data ("PT".data ++ (ds ++ 'S' :: rest)) =
      some (ds ++ 'S' :: rest) := stripLit_append _ _
  have hcons : "PT".data ++ (ds ++ 'S' :: rest) =
      'P' :: ("T".data ++ (ds ++ 'S' :: rest)) := rfl
  rw [hcons] at key ⊢
  simp only [findDurationMatch, key, durationNumberAt_digits ds rest hne hd]

theorem timeline_foldl_sum (entries : List TimelineEntry) (rvs : List Int)
    (t0 : Int)
    (h : entries.map (fun s => parseIntJS ((s.r).getD "0")) = rvs.map some) :
    entries.foldl
      (fun acc s =>
        match acc, parseIntJS ((s.r).getD "0") with
        | some t, some rv => some (t + 1 + rv)
        | _, _ => none)
      (some t0) = some (t0 + (rvs.map (fun r => 1 + r)).sum) := by
  induction entries generalizing rvs t0 with
  | nil =>
    cases rvs with
    | nil => simp
    | cons r rs => simp at h
  | cons e es ih =>
    cases rvs with
    | nil => simp at h
    | cons r rs =>
      simp only [List.map_cons, List.cons.injEq] at h
      obtain ⟨hr, hrs⟩ := h
      simp only [List.foldl_cons, hr]
      rw [ih rs (t0 + 1 + r) hrs]
      simp only [List.map_cons, List.sum_cons]
      exact congrArg some (by ring)

theorem segmentCount_timeline (st : SegmentTemplateModel)
    (mpdDur : Option String) (entries : List TimelineEntry) (rvs : List Int)
    (hTl : st.timelineS = some entries)
    (hMap : entries.map (fun s => parseIntJS ((s.r).getD "0")) = rvs.map some) :
    segmentCountOf st mpdDur =
      Except.ok (some ((rvs.map (fun r => 1 + r)).sum)) := by
  have hstep : segmentCountOf st mpdDur =
      Except.ok (entries.foldl
        (fun acc s =>
          match acc, parseIntJS ((s.r).getD "0") with
          | some t, some rv => some (t + 1 + rv)
          | _, _ => none)
        (some 0)) := by
    unfold segmentCountOf
    rw [hTl]
  rw [hstep, timeline_foldl_sum entries rvs 0 hMap, Int.zero_add]

theorem segmentCount_estimate (st : SegmentTemplateModel) (mpdDur : String)
    (d ts : Int) (hTl : st.timelineS = none)
    (hDur : parseIntJS ((st.duration).getD "0") = some d) (hdne : d ≠ 0)
    (hTs : parseIntJS ((st.timescale).getD "1") = some ts) :
    segmentCountOf st (some mpdDur) =
      Except.ok (some ⌈parseDuration mpdDur / ((d : ℚ) / (ts : ℚ))⌉) := by
  unfold segmentCountOf
  simp only [hTl, hDur, if_pos hdne, hTs, Option.getD_some]

theorem segmentCount_estimate_default (st : SegmentTemplateModel) (d ts : Int)
    (hTl : st.timelineS = none)
    (hDur : parseIntJS ((st.duration).getD "0") = some d) (hdne : d ≠ 0)
    (hTs : parseIntJS ((st.timescale).getD "1") = some ts) :
    segmentCountOf st none =
      Except.ok (some ⌈(300 : ℚ) / ((d : ℚ) / (ts : ℚ))⌉) := by
  unfold segmentCountOf
  simp only [hTl, hDur, if_pos hdne, hTs, Option.getD_some]
  rw [show parseDuration ((none : Option String).getD "PT300S") = 300 by
    decide]

theorem parseDuration_PTS (ds rest : List Char) (hne : ds ≠ [])
    (hd : ∀ c ∈ ds, c.isDigit = true) :
    parseDuration ⟨"PT".data ++ (ds ++ 'S' :: rest)⟩ = (digitsToInt ds : ℚ) := by
  unfold parseDuration
  rw [show (⟨"PT".data ++ (ds ++ 'S' :: rest)⟩ : String).data =
      "PT".data ++ (ds ++ 'S' :: rest) from rfl]
  rw [findDurationMatch_lit ds rest hne hd]
  rfl

theorem segmentCount_undeterminable (st : SegmentTemplateModel)
    (mpdDur : Option String) (hTl : st.timelineS = none)
    (hDur : parseIntJS ((st.duration).getD "0") = none ∨
      parseIntJS ((st.duration).getD "0") = some 0) :
    segmentCountOf st mpdDur = Except.error "Cannot determine segment count" := by
  unfold segmentCountOf
  rw [hTl]
  rcases hDur with h | h <;> simp [h]

theorem segmentCount_estimate_example :
    segmentCountOf { duration := some "2000", timescale := some "1000" }
      (some "PT10S") = Except.ok (some 5) := by
  rw [segmentCount_estimate _ _ 2000 1000 rfl (by decide) (by decide)
    (by decide)]
  rw [show parseDuration "PT10S" = ((10 : Int) : ℚ) by decide]
  norm_num

/-- C5: DASH segment-count derivation: with a SegmentTimeline present the
count is the sum of `1 + repeatCount` over its entries; otherwise, with a
fixed segment duration and timescale present, it is
`ceil(totalPresentationSeconds / (duration/timescale))`, where the seconds
come from the MPD's ISO-8601 `PT<seconds>S` attribute and default to 300
when absent; otherwise a ManifestError (`Cannot determine segment count`)
is raised.  `SegmentTimeline=[{d:1000,r:4}]` with `timescale=1000` yields 5,
and `duration=2000, timescale=1000` with `PT10S` yields 5. -/
theorem dash_segment_count_derivation :
    (∀ (st : SegmentTemplateModel) (mpdDur : Option String)
        (entries : List TimelineEntry) (rvs : List Int),
      st.timelineS = some entries →
      entries.map (fun s => parseIntJS ((s.r).getD "0")) = rvs.map some →
      segmentCountOf st mpdDur =
        Except.ok (some ((rvs.map (fun r => 1 + r)).sum))) ∧
    (∀ (st : SegmentTemplateModel) (mpdDur : String) (d ts : Int),
      st.timelineS = none →
      parseIntJS ((st.duration).getD "0") = some d → d ≠ 0 →
      parseIntJS ((st.timescale).getD "1") = some ts →
      segmentCountOf st (some mpdDur) =
        Except.ok (some ⌈parseDuration mpdDur / ((d : ℚ) / (ts : ℚ))⌉)) ∧
    (∀ (st : SegmentTemplateModel) (d ts : Int),
      st.timelineS = none →
      parseIntJS ((st.duration).getD "0") = some d → d ≠ 0 →
      parseIntJS ((st.timescale).getD "1") = some ts →
      segmentCountOf st none =
        Except.ok (some ⌈(300 : ℚ) / ((d : ℚ) / (ts : ℚ))⌉)) ∧
    (∀ (ds rest : List Char), ds ≠ [] → (∀ c ∈ ds, c.isDigit = true) →
      parseDuration ⟨"PT".data ++ (ds ++ 'S' :: rest)⟩ = (digitsToInt ds : ℚ)) ∧
    (∀ (st : SegmentTemplateModel) (mpdDur : Option String),
      st.timelineS = none →
      (parseIntJS ((st.duration).getD "0") = none ∨
        parseIntJS ((st.duration).getD "0") = some 0) →
      segmentCountOf st mpdDur = Except.error "Cannot determine segment count") ∧
    segmentCountOf
      { timelineS := some [{ d := some "1000", r := some "4" }],
        timescale := some "1000" } none = Except.ok (some 5) ∧
    segmentCountOf { duration := some "2000", timescale := some "1000" }
      (some "PT10S") = Except.ok (some 5) :=
  ⟨segmentCount_timeline, segmentCount_estimate, segmentCount_estimate_default,
    parseDuration_PTS, segmentCount_undeterminable, by decide,
    segmentCount_estimate_example⟩

/-- Witness for C5: the fixed-duration estimate applied to the concrete
manifest `duration=2000, timescale=1000, PT10S`, yielding 5 segments. -/
theorem dash_segment_count_derivation_witness :
    segmentCountOf { duration := some "2000", timescale := some "1000" }
      (some "PT10S") = Except.ok (some 5) := by
  have h := dash_segment_count_derivation.2.1
    { duration := some "2000", timescale := some "1000" } "PT10S" 2000 1000
    rfl (by decide) (by decide) (by decide)
  rw [h, show parseDuration "PT10S" = ((10 : Int) : ℚ) by decide]
  norm_num

/-! ## Multi-instance failover (`APIService.fetchWithRetry`)

The loop is modelled over an environment `outcomes : Nat → AttemptOutcome`
giving what the `fetch` of the t-th attempt produced.  The loop carries the
source's two counters (`attempt`, `instanceIndex`); the list of
`instanceIndex` values at which fetches were issued is returned as a trace,
so round-robin order (`instances[instanceIndex % instances.length]`) is
observable.  The `delay(...)` calls only affect timing and are omitted. -/

/-- An upstream HTTP response: its status, and the JSON parse of its body
as consulted on a 401 (`Except.error` models a body whose `.json()` parse
throws, which falls through to the generic exception handler). -/
structure UpstreamResponse where
  status : Nat
  body401 : Except String (Option Int) := Except.ok none
  deriving DecidableEq, Repr

/-- What one `fetch(url)` did: returned a response, or threw. -/
inductive AttemptOutcome
  | resp (r : UpstreamResponse)
  | exc (isAbort : Bool) (msg : String)
  deriving DecidableEq, Repr

/-- The error values `fetchWithRetry` can remember in `lastError`. -/
inductive FetchError
  | httpStatus (code : Nat)
  | network (msg : String)
  deriving DecidableEq, Repr

/-- The observable result of `fetchWithRetry`: a successful response (with
its attempt number), exhaustion (`throw lastError || new Error('All API
instances failed')`, `none` modelling the generic error), an immediately
re-raised abort, or the `No API instances provided` error. -/
inductive FetchResult
  | success (attempt : Nat) (r : UpstreamResponse)
  | exhausted (lastError : Option FetchError)
  | aborted (msg : String)
  | noInstances
  deriving DecidableEq, Repr

/-- What one iteration of the retry loop does with an outcome, mirroring the
source's branch order: 429 → advance recording nothing; 2xx → return the
response; 401 with token-invalid subStatus 11002 → advance recording
nothing; 401 otherwise → advance recording the 401 status error (a body
whose parse throws records a network error); status ≥ 500 → advance
recording nothing; any other status → advance recording the status error;
an abort exception → re-raise; any other exception → advance recording the
network error. -/
inductive StepAction
  | ok2xx (r : UpstreamResponse)
  | abortNow (msg : String)
  | advance (candidate : Option FetchError)
  deriving DecidableEq, Repr

def stepClassify (o : AttemptOutcome) : StepAction :=
  match o with
  | AttemptOutcome.resp r =>
    if r.status = 429 then StepAction.advance none
    else if 200 ≤ r.status ∧ r.status < 300 then StepAction.ok2xx r
    else if r.status = 401 then
      match r.body401 with
      | Except.ok sub =>
        if sub = some 11002 then StepAction.advance none
        else StepAction.advance (some (FetchError.httpStatus 401))
      | Except.error msg => StepAction.advance (some (FetchError.network msg))
    else if 500 ≤ r.status then StepAction.advance none
    else StepAction.advance (some (FetchError.httpStatus r.status))
  | AttemptOutcome.exc isAbort msg =>
    if isAbort then StepAction.abortNow msg
    else StepAction.advance (some (FetchError.network msg))

/-- `lastError` update: a recorded candidate replaces the previous value. -/
def newLast (candidate le : Option FetchError) : Option FetchError :=
  match candidate with
  | some e => some e
  | none => le

/-- The candidate error an advancing outcome records (none for 429,
token-invalid 401 and 5xx). -/
def recordedCandidate (o : AttemptOutcome) : Option FetchError :=
  match stepClassify o with
  | StepAction.advance c => c
  | _ => none

/-- The retry loop of `fetchWithRetry`: `fuel` is the number of attempts
still allowed (`maxTotalAttempts - attempt + 1`). -/
def fetchLoop (outcomes : Nat → AttemptOutcome) :
    Nat → Nat → Nat → Option FetchError → List Nat → FetchResult × List Nat
  | 0, _, _, le, tr => (FetchResult.exhausted le, tr.reverse)
  | fuel + 1, attempt, idx, le, tr =>
    match stepClassify (outcomes attempt) with
    | StepAction.ok2xx r => (FetchResult.success attempt r, (idx :: tr).reverse)
    | StepAction.abortNow msg => (FetchResult.aborted msg, (idx :: tr).reverse)
    | StepAction.advance cand =>
      fetchLoop outcomes fuel (attempt + 1) (idx + 1) (newLast cand le) (idx :: tr)

/-- `fetchWithRetry` over the outcome environment:
`maxTotalAttempts = instances.length * 2`, starting at attempt 1 and
instance index 0. -/
def fetchWithRetry (outcomes : Nat → AttemptOutcome) (instanceCount : Nat) :
    FetchResult × List Nat :=
  if instanceCount = 0 then (FetchResult.noInstances, [])
  else fetchLoop outcomes (instanceCount * 2) 1 0 none []

/-- An outcome on which the loop advances to the next instance: a non-2xx
response, or a non-abort exception. -/
def attemptAdvances (o : AttemptOutcome) : Prop :=
  match o with
  | AttemptOutcome.resp r => ¬(200 ≤ r.status ∧ r.status < 300)
  | AttemptOutcome.exc isAbort _ => isAbort = false

theorem step_ok2xx (r : UpstreamResponse) (hlo : 200 ≤ r.status)
    (hhi : r.status < 300) :
    stepClassify (AttemptOutcome.resp r) = StepAction.ok2xx r := by
  have h429 : ¬ r.status = 429 := by omega
  simp [stepClassify, h429, hlo, hhi]

theorem step_advance_exists (o : AttemptOutcome) (h : attemptAdvances o) :
    ∃ c, stepClassify o = StepAction.advance c := by
  cases o with
  | resp r =>
    have hok : ¬(200 ≤ r.status ∧ r.status < 300) := h
    by_cases h429 : r.status = 429
    · exact ⟨none, by simp [stepClassify, h429]⟩
    · by_cases h401 : r.status = 401
      · cases hb : r.body401 with
        | ok sub =>
          by_cases hsub : sub = some 11002
          · exact ⟨none, by simp [stepClassify, h429, hok, h401, hb, hsub]⟩
          · exact ⟨some (FetchError.httpStatus 401),
              by simp [stepClassify, h429, hok, h401, hb, hsub]⟩
        | error msg =>
          exact ⟨some (FetchError.network msg),
            by simp [stepClassify, h429, hok, h401, hb]⟩
      · by_cases h500 : 500 ≤ r.status
        · exact ⟨none, by simp [stepClassify, h429, hok, h401, h500]⟩
        · exact ⟨some (FetchError.httpStatus r.status),
            by simp [stepClassify, h429, hok, h401, h500]⟩
  | exc isAbort msg =>
    have ha : isAbort = false := h
    exact ⟨some (FetchError.network msg), by simp [stepClassify, ha]⟩

theorem step_advance (o : AttemptOutcome) (h : attemptAdvances o) :
    stepClassify o = StepAction.advance (recordedCandidate o) := by
  obtain ⟨c, hc⟩ := step_advance_exists o h
  rw [hc]
  unfold recordedCandidate
  rw [hc]

theorem fetchLoop_trace (outcomes : Nat → AttemptOutcome) :
    ∀ (fuel attempt idx : Nat) (le : Option FetchError) (tr : List Nat),
    ∃ k, k ≤ fuel ∧
      (fetchLoop outcomes fuel attempt idx le tr).2 =
        tr.reverse ++ List.range' idx k := by
  intro fuel
  induction fuel with
  | zero =>
    intro attempt idx le tr
    exact ⟨0, le_rfl, by simp [fetchLoop]⟩
  | succ fuel ih =>
    intro attempt idx le tr
    unfold fetchLoop
    cases hstep : stepClassify (outcomes attempt) with
    | ok2xx r =>
      exact ⟨1, by omega, by simp [List.range']⟩
    | abortNow msg =>
      exact ⟨1, by omega, by simp [List.range']⟩
    | advance cand =>
      obtain ⟨k, hk, heq⟩ := ih (attempt + 1) (idx + 1) (newLast cand le) (idx :: tr)
      refine ⟨k + 1, by omega, ?_⟩
      rw [heq]
      simp [List.range'_succ]

theorem fetchLoop_first_success (outcomes : Nat → AttemptOutcome) :
    ∀ (fuel attempt idx : Nat) (le : Option FetchError) (tr : List Nat)
      (t0 : Nat) (r : UpstreamResponse),
    attempt ≤ t0 → t0 < attempt + fuel →
    (∀ s, attempt ≤ s → s < t0 → attemptAdvances (outcomes s)) →
    outcomes t0 = AttemptOutcome.resp r → 200 ≤ r.status → r.status < 300 →
    (fetchLoop outcomes fuel attempt idx le tr).1 = FetchResult.success t0 r := by
  intro fuel
  induction fuel with
  | zero =>
    intro attempt idx le tr t0 r h1 h2 _ _ _ _
    omega
  | succ fuel ih =>
    intro attempt idx le tr t0 r h1 h2 hpre hres hlo hhi
    by_cases heq : attempt = t0
    · subst heq
      have hstep : stepClassify (outcomes attempt) = StepAction.ok2xx r := by
        rw [hres]
        exact step_ok2xx r hlo hhi
      unfold fetchLoop
      rw [hstep]
    · have hlt : attempt < t0 := lt_of_le_of_ne h1 heq
      have hstep := step_advance _ (hpre attempt le_rfl hlt)
      unfold fetchLoop
      rw [hstep]
      exact ih (attempt + 1) (idx + 1) _ _ t0 r hlt (by omega)
        (fun s hs1 hs2 => hpre s (by omega) hs2) hres hlo hhi

theorem fetchLoop_exhaust (outcomes : Nat → AttemptOutcome) :
    ∀ (fuel attempt idx : Nat) (le : Option FetchError) (tr : List Nat),
    (∀ s, attempt ≤ s → s < attempt + fuel → attemptAdvances (outcomes s)) →
    (fetchLoop outcomes fuel attempt idx le tr).1 =
      FetchResult.exhausted ((List.range' attempt fuel).foldl
        (fun acc t => newLast (recordedCandidate (outcomes t)) acc) le) := by
  intro fuel
  induction fuel with
  | zero =>
    intro attempt idx le tr _
    rfl
  | succ fuel ih =>
    intro attempt idx le tr hadv
    have hstep := step_advance _ (hadv attempt le_rfl (by omega))
    unfold fetchLoop
    rw [hstep]
    show (fetchLoop outcomes fuel (attempt + 1) (idx + 1)
        (newLast (recordedCandidate (outcomes attempt)) le) (idx :: tr)).1 = _
    rw [ih (attempt + 1) (idx + 1) _ (idx :: tr)
      (fun s hs1 hs2 => hadv s (by omega) (by omega))]
    rw [List.range'_succ, List.foldl_cons]

/-- C4 counterexample ingredients: a two-attempt run whose first attempt is
a plain 404 (recorded) and whose second is a 500 (advances without
recording). -/
def lastErrorScenario : Nat → AttemptOutcome := fun t =>
  if t = 1 then AttemptOutcome.resp { status := 404 }
  else AttemptOutcome.resp { status := 500 }

/-- Modelled from the spec: "Exhausting all attempts raises
`InstanceExhausted` carrying the last observed error" — the error observed
at the latest failing attempt, where a failing response carries its HTTP
status error and a thrown exception carries the network error. -/
def specErrorOf (o : AttemptOutcome) : Option FetchError :=
  match o with
  | AttemptOutcome.resp r =>
    if 200 ≤ r.status ∧ r.status < 300 then none
    else some (FetchError.httpStatus r.status)
  | AttemptOutcome.exc _ msg => some (FetchError.network msg)

/-- Modelled from the spec: the last observed error across attempts
`1 .. maxAttempts`. -/
def specLastObservedError (outcomes : Nat → AttemptOutcome)
    (maxAttempts : Nat) : Option FetchError :=
  (List.range' 1 maxAttempts).foldl
    (fun acc t => newLast (specErrorOf (outcomes t)) acc) none

/-- C4 counterexample: with one instance and attempts `[404, 500]`, all
attempts are exhausted, yet the raised error carries the 404 — the error of
the *first* attempt — while the last observed error is the 500: the claim
that exhaustion "raises an InstanceExhausted error carrying the last
observed error" fails as stated, because 429, token-invalid 401 and ≥ 500
responses advance without updating `lastError`. -/
theorem fetchWithRetry_last_error_counterexample :
    (fetchWithRetry lastErrorScenario 1).1 =
      FetchResult.exhausted (some (FetchError.httpStatus 404)) ∧
    specLastObservedError lastErrorScenario 2 =
      some (FetchError.httpStatus 500) ∧
    (fetchWithRetry lastErrorScenario 1).1 ≠
      FetchResult.exhausted (specLastObservedError lastErrorScenario 2) := by
  decide

/-- C4 (amended): for a non-empty instance list `fetchWithRetry` returns the
first successful response, trying instances in round-robin order (the trace
of instance indices is `0, 1, 2, …`, the t-th attempt fetching
`instances[(t-1) % n]`) for at most `2 × instanceCount` total attempts; an
empty list raises `No API instances provided`; and when every attempt
advances (429, token-invalid 401, HTTP ≥ 500, another non-2xx status, or a
non-abort network exception), it raises an error carrying the last
*recorded* candidate error — recorded only by other-non-2xx statuses and
network exceptions — or the generic `All API instances failed` error
(`none`) when no candidate was recorded. -/
theorem fetchWithRetry_failover_contract :
    (∀ outcomes, fetchWithRetry outcomes 0 = (FetchResult.noInstances, [])) ∧
    (∀ (outcomes : Nat → AttemptOutcome) (n : Nat), n ≠ 0 →
      ∃ k, k ≤ n * 2 ∧ (fetchWithRetry outcomes n).2 = List.range k) ∧
    (∀ (outcomes : Nat → AttemptOutcome) (n t0 : Nat) (r : UpstreamResponse),
      n ≠ 0 → 1 ≤ t0 → t0 ≤ n * 2 →
      (∀ s, 1 ≤ s → s < t0 → attemptAdvances (outcomes s)) →
      outcomes t0 = AttemptOutcome.resp r → 200 ≤ r.status → r.status < 300 →
      (fetchWithRetry outcomes n).1 = FetchResult.success t0 r) ∧
    (∀ (outcomes : Nat → AttemptOutcome) (n : Nat), n ≠ 0 →
      (∀ s, 1 ≤ s → s ≤ n * 2 → attemptAdvances (outcomes s)) →
      (fetchWithRetry outcomes n).1 =
        FetchResult.exhausted ((List.range' 1 (n * 2)).foldl
          (fun acc t => newLast (recordedCandidate (outcomes t)) acc) none)) := by
  refine ⟨fun outcomes => by simp [fetchWithRetry], ?_, ?_, ?_⟩
  · intro outcomes n hn
    unfold fetchWithRetry
    rw [if_neg hn]
    obtain ⟨k, hk, heq⟩ := fetchLoop_trace outcomes (n * 2) 1 0 none []
    exact ⟨k, hk, by rw [heq]; simp [List.range_eq_range']⟩
  · intro outcomes n t0 r hn h1 h2 hpre hres hlo hhi
    unfold fetchWithRetry
    rw [if_neg hn]
    exact fetchLoop_first_success outcomes (n * 2) 1 0 none [] t0 r h1
      (by omega) hpre hres hlo hhi
  · intro outcomes n hn hadv
    unfold fetchWithRetry
    rw [if_neg hn]
    exact fetchLoop_exhaust outcomes (n * 2) 1 0 none []
      (fun s hs1 hs2 => hadv s hs1 (by omega))

/-- Witness for C4 (amended): one instance whose first attempt returns 200
makes `fetchWithRetry` succeed at attempt 1 with that response. -/
theorem fetchWithRetry_failover_contract_witness :
    (fetchWithRetry (fun _ => AttemptOutcome.resp { status := 200 }) 1).1 =
      FetchResult.success 1 { status := 200 } :=
  fetchWithRetry_failover_contract.2.2.1
    (fun _ => AttemptOutcome.resp { status := 200 }) 1 1 { status := 200 }
    (by decide) (by decide) (by decide)
    (fun s hs1 hs2 => absurd hs2 (Nat.not_lt.mpr hs1))
    rfl (by decide) (by decide)

/-- C10: when a DASH SegmentTemplate carries no `startNumber` attribute the
assembler uses 0 as the start number, so media segments are requested for
numbers `0 .. count-1` (substituted for `$Number$`), not `1 .. count`. -/
theorem dash_missing_startNumber_zero_based :
    (∀ st : SegmentTemplateModel, st.startNumber = none →
      startNumberOf st = some 0) ∧
    (∀ (st : SegmentTemplateModel) (mpdDur : Option String) (cnt : Int),
      st.startNumber = none →
      segmentCountOf st mpdDur = Except.ok (some cnt) →
      mediaRequestNumbers st mpdDur =
        Except.ok ((List.range cnt.toNat).map (fun i => some ((i : Int))))) ∧
    mediaRequestNumbers
      { startNumber := none, timelineS := some [{ r := some "2" }] } none =
      Except.ok [some 0, some 1, some 2] ∧
    mediaRequestNumbers
      { startNumber := none, timelineS := some [{ r := some "2" }] } none ≠
      Except.ok [some 1, some 2, some 3] := by
  refine ⟨?_, ?_, by decide, by decide⟩
  · intro st h
    unfold startNumberOf
    rw [h]
    decide
  · intro st mpdDur cnt h hCnt
    have hStart : startNumberOf st = some 0 := by
      unfold startNumberOf
      rw [h]
      decide
    unfold mediaRequestNumbers
    rw [hCnt]
    show Except.ok (mediaSegmentNumbers (startNumberOf st) (some cnt)) = _
    rw [hStart]
    show Except.ok ((List.range cnt.toNat).map
      (fun i => (some (0 : Int)).map (· + (i : Int)))) = _
    refine congrArg Except.ok (List.map_congr_left fun a _ => ?_)
    simp

/-- Witness for C10: a timeline manifest with three segments and no
`startNumber` requests exactly the numbers 0, 1, 2. -/
theorem dash_missing_startNumber_zero_based_witness :
    mediaRequestNumbers
      { startNumber := none, timelineS := some [{ r := some "2" }] } none =
      Except.ok [some 0, some 1, some 2] := by
  have h := dash_missing_startNumber_zero_based.2.1
    { startNumber := none, timelineS := some [{ r := some "2" }] } none 3
    rfl (by decide)
  rw [h]
  decide

/-! ## Upstream payload normalization (`APIService.parseTrackLookup`,
`APIService.normalizeTrackResponse`, `APIService.getTrack`)

Upstream JSON payloads are modelled by `JVal`; an absent property is
`Option.none` (JavaScript `undefined`). -/

/-- A JSON value as produced by `response.json()`. -/
inductive JVal
  | jnull
  | jbool (b : Bool)
  | jnum (n : Int)
  | jstr (s : String)
  | jarr (elems : List JVal)
  | jobj (fields : List (String × JVal))

/-- `typeof v === 'object'` (`null` and arrays included). -/
def jsTypeofObject : JVal → Bool
  | JVal.jnull => true
  | JVal.jarr _ => true
  | JVal.jobj _ => true
  | _ => false

/-- JavaScript truthiness. -/
def jsTruthy : JVal → Bool
  | JVal.jnull => false
  | JVal.jbool b => b
  | JVal.jnum n => n != 0
  | JVal.jstr s => s != ""
  | JVal.jarr _ => true
  | JVal.jobj _ => true

/-- Property access `v[key]`; `none` is `undefined`.  The keys used here
(`data`, `duration`, `manifest`, `OriginalTrackUrl`, `trackId`) are never
array indices, so property access on an array is `undefined`. -/
def getField : JVal → String → Option JVal
  | JVal.jobj fields, key => (fields.find? (fun kv => kv.1 == key)).map (·.2)
  | _, _ => none

/-- `key in v` for the same non-index keys. -/
def hasKey (v : JVal) (key : String) : Bool :=
  match v with
  | JVal.jobj fields => fields.any (fun kv => kv.1 == key)
  | _ => false

/-- The nullish-coalescing `v ?? dflt` applied to a property lookup. -/
def jsNullish (v : Option JVal) (dflt : JVal) : JVal :=
  match v with
  | some JVal.jnull => dflt
  | some x => x
  | none => dflt

/-- The entry loop of `parseTrackLookup`: pick the first object with a
`duration` key as the track, the first with a `manifest` key as the info,
and remember a string-valued `OriginalTrackUrl` while none is held. -/
def scanEntries : List JVal → Option JVal → Option JVal → Option String →
    Option JVal × Option JVal × Option String
  | [], track, info, url => (track, info, url)
  | e :: rest, track, info, url =>
    if jsTruthy e && jsTypeofObject e then
      if track.isNone && hasKey e "duration" then
        scanEntries rest (some e) info url
      else if info.isNone && hasKey e "manifest" then
        scanEntries rest track (some e) url
      else if (url.isNone || url == some "") && hasKey e "OriginalTrackUrl" then
        match getField e "OriginalTrackUrl" with
        | some (JVal.jstr s) => scanEntries rest track info (some s)
        | _ => scanEntries rest track info url
      else scanEntries rest track info url
    else scanEntries rest track info url

/-- `parseTrackLookup(data)`: wrap a non-array into a one-element array,
scan, and throw `Malformed track response` unless both a track and an info
object were found. -/
def parseTrackLookup (data : JVal) :
    Except String (JVal × JVal × Option String) :=
  let entries :=
    match data with
    | JVal.jarr xs => xs
    | v => [v]
  match scanEntries entries none none none with
  | (some track, some info, url) => Except.ok (track, info, url)
  | _ => Except.error "Malformed track response"

/-- `normalizeTrackResponse(apiResponse)`: non-objects pass through;
otherwise take `apiResponse.data ?? apiResponse` as the raw payload,
synthesize a track stub `{duration: raw.duration ?? 0, id: raw.trackId ??
null}`, and return the pair `[trackStub, raw]`. -/
def normalizeTrackResponse (apiResponse : JVal) : JVal :=
  if !(jsTruthy apiResponse && jsTypeofObject apiResponse) then apiResponse
  else
    let raw := jsNullish (getField apiResponse "data") apiResponse
    let trackStub := JVal.jobj
      [("duration", jsNullish (getField raw "duration") (JVal.jnum 0)),
       ("id", jsNullish (getField raw "trackId") JVal.jnull)]
    JVal.jarr [trackStub, raw]

/-- The normalization pipeline of `getTrack`:
`parseTrackLookup(normalizeTrackResponse(jsonResponse))`. -/
def getTrackNormalize (payload : JVal) :
    Except String (JVal × JVal × Option String) :=
  parseTrackLookup (normalizeTrackResponse payload)

/-- An upstream payload in the recognized array shape: a track object
tagged by a `duration` field followed by an info object tagged by a
`manifest` field. -/
def arrayShapePayload : JVal :=
  JVal.jarr [JVal.jobj [("duration", JVal.jnum 100)],
             JVal.jobj [("manifest", JVal.jstr "bWFuaWZlc3Q=")]]

/-- C3: `parseTrackLookup` alone does recognize the array-of-tagged-objects
shape, but `getTrack` first pipes every payload through
`normalizeTrackResponse`, which wraps even an array payload into
`[trackStub, rawArray]`; the `manifest`-tagged info object is then never
found (an array has no `manifest` property), so `getTrack` raises
`Malformed track response` for *every* array payload, including the
recognized shape — while the single-wrapped-object shape still succeeds.
This contradicts the claim that both recognized shapes are normalized and
`MalformedResponse` is raised exactly when neither matches. -/
theorem getTrack_array_shape_malformed :
    parseTrackLookup arrayShapePayload =
      Except.ok (JVal.jobj [("duration", JVal.jnum 100)],
        JVal.jobj [("manifest", JVal.jstr "bWFuaWZlc3Q=")], none) ∧
    normalizeTrackResponse arrayShapePayload =
      JVal.jarr [JVal.jobj [("duration", JVal.jnum 0), ("id", JVal.jnull)],
        arrayShapePayload] ∧
    getTrackNormalize arrayShapePayload =
      Except.error "Malformed track response" ∧
    (∀ xs : List JVal, getTrackNormalize (JVal.jarr xs) =
      Except.error "Malformed track response") ∧
    getTrackNormalize (JVal.jobj [("duration", JVal.jnum 100),
        ("manifest", JVal.jstr "bWFuaWZlc3Q=")]) =
      Except.ok (JVal.jobj [("duration", JVal.jnum 100), ("id", JVal.jnull)],
        JVal.jobj [("duration", JVal.jnum 100),
          ("manifest", JVal.jstr "bWFuaWZlc3Q=")], none) :=
  ⟨rfl, rfl, rfl, fun _ => rfl, rfl⟩

/-! ## Destination path resolution (`DownloadService.normalizeRelativePath`,
`ensureWithinOutputDir`, `resolveOutputPath`)

Paths are POSIX (`path.sep = '/'`); `fs.access`-style existence checks are
passed in as an environment `fileExists : String → Bool`; `fs.mkdir` only
creates directories and does not affect the returned path. -/

/-- JS `String.prototype.startsWith`. -/
def jsStartsWith (s pre : String) : Bool :=
  pre.data.isPrefixOf s.data

/-- `s.split('/')`. -/
def splitSlash (s : String) : List String :=
  (s.data.splitOn '/').map (fun cs => (⟨cs⟩ : String))

/-- Join path segments with `path.sep`. -/
def joinSlash (parts : List String) : String :=
  String.intercalate "/" parts

/-- The characters `sanitizeForFilename` replaces (`[\\/:*?"<>|]`). -/
def sanitizeChar (c : Char) : Char :=
  if c = '\\' || c = '/' || c = ':' || c = '*' || c = '?' || c = '"' ||
      c = '<' || c = '>' || c = '|' then '_' else c

/-- Collapse runs of whitespace into one space (`replace(/\s+/g, ' ')`). -/
def collapseWsAux : List Char → Bool → List Char
  | [], _ => []
  | c :: cs, prevWs =>
    if jsWhitespace c then
      if prevWs then collapseWsAux cs true
      else ' ' :: collapseWsAux cs true
    else c :: collapseWsAux cs false

/-- `sanitizeForFilename` from utils/helpers.js: `Unknown` for a falsy
value, else replace illegal filename characters with `_`, collapse
whitespace, and trim. -/
def sanitizeForFilename (value : String) : String :=
  if value = "" then "Unknown"
  else jsTrim ⟨collapseWsAux (value.data.map sanitizeChar) false⟩

/-- `path.basename` on the slash-free-segment joins produced here: the
final path component. -/
def jsPathBasename (p : String) : String :=
  (splitSlash p).getLastD ""

/-- `path.dirname` on the same domain: all but the final component, `"."`
for a single component. -/
def jsPathDirname (p : String) : String :=
  let parts := splitSlash p
  if parts.length ≤ 1 then "." else joinSlash parts.dropLast

/-- `path.extname` of a basename: the suffix from the last `.`, empty when
there is no dot or the only dot leads the name. -/
def jsPathExtname (base : String) : String :=
  let rev := base.data.reverse
  let afterDot := rev.takeWhile (fun c => c ≠ '.')
  if afterDot.length = rev.length then ""
  else if base.data.length - afterDot.length - 1 = 0 then ""
  else ⟨'.' :: afterDot.reverse⟩

/-- `path.basename(base, ext)`: strip a proper `ext` suffix. -/
def basenameWithoutExt (base ext : String) : String :=
  if ext ≠ "" ∧ ext.data.length < base.data.length ∧
      ext.data.isSuffixOf base.data then
    ⟨base.data.take (base.data.length - ext.data.length)⟩
  else base

/-- Normalize the segments of an absolute path: drop empty and `.`
segments, let `..` pop the previous segment (as `path.resolve` /
`path.join` normalization does, with `..` at the root staying at the
root). -/
def resolveSegments (segs : List String) : List String :=
  segs.foldl
    (fun acc seg =>
      if seg = "" || seg = "." then acc
      else if seg = ".." then acc.dropLast
      else acc ++ [seg])
    []

/-- `path.resolve(p)` for an already-absolute `p`. -/
def jsPathResolveAbs (p : String) : String :=
  "/" ++ joinSlash (resolveSegments (splitSlash p))

/-- `path.join(a, b)` for an absolute `a`: concatenate and normalize. -/
def jsPathJoin (a b : String) : String :=
  jsPathResolveAbs (a ++ "/" ++ b)

/-- `normalizeRelativePath(relativePath, extension, trackId)` from
download-service.js: split on `/` (after turning backslashes into
slashes), trim each segment, drop empty and `.`/`..` segments, sanitize
the rest; an empty result falls back to `<trackId>.<extension>`, and a
missing or bare-`.<extension>` basename is replaced by the fallback name
inside its directory. -/
def normalizeRelativePath (relativePath extension trackId : String) : String :=
  let normalized : String :=
    ⟨relativePath.data.map (fun c => if c = '\\' then '/' else c)⟩
  let segments := (((splitSlash normalized).map jsTrim).filter
      (fun s => s != "")).filter (fun s => s != "." && s != "..")
    |>.map sanitizeForFilename
  if segments.isEmpty then trackId ++ "." ++ extension
  else
    let safePath := joinSlash segments
    let baseName := jsPathBasename safePath
    if baseName = "" || baseName == "." ++ extension then
      let fallbackName := trackId ++ "." ++ extension
      let dir := jsPathDirname safePath
      if dir = "." then fallbackName else dir ++ "/" ++ fallbackName
    else safePath

/-- `ensureWithinOutputDir(candidate, outputDir, trackId, extension)`:
return the resolved candidate when it stays at or under the output
directory, else fall back to `<outputDir>/<trackId>.<extension>`. -/
def ensureWithinOutputDir (candidate outputDir trackId extension : String) :
    String :=
  let resolved := jsPathResolveAbs candidate
  if resolved == outputDir || jsStartsWith resolved (outputDir ++ "/") then
    resolved
  else jsPathJoin outputDir (trackId ++ "." ++ extension)

/-- `resolveOutputPath(relativePath, trackId, extension)`: join the
re-normalized relative path under the resolved storage root, clamp it into
the root, and walk the `-trackId`, `-trackId-2` … `-trackId-999` collision
chain until a non-existing candidate is found. -/
def resolveOutputPath (fileExists : String → Bool)
    (storagePath relativePath trackId extension : String) : String :=
  let outputDir := jsPathResolveAbs storagePath
  let safeRelativePath := normalizeRelativePath relativePath extension trackId
  let candidate0 := ensureWithinOutputDir (jsPathJoin outputDir safeRelativePath)
    outputDir trackId extension
  if !(fileExists candidate0) then candidate0
  else
    let directory := jsPathDirname candidate0
    let baseName := jsPathBasename candidate0
    let ext := jsPathExtname baseName
    let name := basenameWithoutExt baseName ext
    let candidate1 := ensureWithinOutputDir
      (jsPathJoin directory (name ++ "-" ++ trackId ++ ext))
      outputDir trackId extension
    if !(fileExists candidate1) then candidate1
    else
      match (List.range' 2 998).find?
          (fun i => !(fileExists (ensureWithinOutputDir
            (jsPathJoin directory
              (name ++ "-" ++ trackId ++ "-" ++ toString i ++ ext))
            outputDir trackId extension))) with
      | some i => ensureWithinOutputDir
          (jsPathJoin directory
            (name ++ "-" ++ trackId ++ "-" ++ toString i ++ ext))
          outputDir trackId extension
      | none => candidate1

/-- C2 counterexample: the rendered relative path `../../etc/passwd` does
*not* resolve to `<root>/<trackId>.<extension>`: `normalizeRelativePath`
silently discards the `.`/`..` segments, keeping `etc/passwd`, and the
joined path `<root>/etc/passwd` passes the containment check unchanged, so
the `{trackId}.{extension}` fallback is never consulted. -/
theorem traversal_template_counterexample :
    normalizeRelativePath "../../etc/passwd" "flac" "123" = "etc/passwd" ∧
    resolveOutputPath (fun _ => false) "/music" "../../etc/passwd" "123"
      "flac" = "/music/etc/passwd" ∧
    resolveOutputPath (fun _ => false) "/music" "../../etc/passwd" "123"
      "flac" ≠ "/music/123.flac" := by
  refine ⟨by decide, by decide, by decide⟩

/-- C2 (amended): a filename template rendering to `../../etc/passwd`
resolves to `<root>/etc/passwd` — the `.`/`..` segments are discarded and
the rest joined under the storage root — which never escapes the storage
root; it does not resolve to `<root>/<trackId>.<extension>` (the fallback
is reserved for templates whose sanitized segment list is empty or whose
joined path escapes the root).  Stated for any filesystem in which the
target does not already exist, at root `/music`, trackId `123`,
extension `flac`. -/
theorem traversal_template_resolves_under_root (fe : String → Bool)
    (h : fe "/music/etc/passwd" = false) :
    resolveOutputPath fe "/music" "../../etc/passwd" "123" "flac" =
      "/music/etc/passwd" ∧
    jsStartsWith "/music/etc/passwd" "/music/" = true ∧
    (∀ candidate trackId extension : String,
      ensureWithinOutputDir candidate "/music" trackId extension = "/music" ∨
      jsStartsWith (ensureWithinOutputDir candidate "/music" trackId extension)
        "/music/" = true ∨
      ensureWithinOutputDir candidate "/music" trackId extension =
        jsPathJoin "/music" (trackId ++ "." ++ extension)) := by
  refine ⟨?_, by decide, ?_⟩
  · have hc0 : ensureWithinOutputDir
        (jsPathJoin (jsPathResolveAbs "/music")
          (normalizeRelativePath "../../etc/passwd" "flac" "123"))
        (jsPathResolveAbs "/music") "123" "flac" = "/music/etc/passwd" := by
      decide
    simp only [resolveOutputPath]
    rw [hc0, h]
    rfl
  · intro candidate trackId extension
    unfold ensureWithinOutputDir
    by_cases h1 : (jsPathResolveAbs candidate == "/music" ||
        jsStartsWith (jsPathResolveAbs candidate) ("/music" ++ "/")) = true
    · rw [if_pos h1]
      rcases Bool.or_eq_true_iff.mp h1 with h2 | h2
      · exact Or.inl (by simpa using h2)
      · exact Or.inr (Or.inl (by simpa using h2))
    · rw [if_neg h1]
      exact Or.inr (Or.inr rfl)

/-- Witness for C2 (amended): the theorem applied to the empty filesystem. -/
theorem traversal_template_resolves_under_root_witness :
    resolveOutputPath (fun _ => false) "/music" "../../etc/passwd" "123"
      "flac" = "/music/etc/passwd" :=
  (traversal_template_resolves_under_root (fun _ => false) rfl).1

/-! ## Persistent file cache (`CacheService`)

The `files` table is a list of rows; the filesystem is an environment
`fsExists : String → Bool`.  `checkCache` both reads and (on a stale row)
deletes, so it returns the new row list alongside its answer. -/

/-- One row of the `files` table (`downloaded_at` carries no information the
verified claims consult and is omitted; `file_path` is `NOT NULL`). -/
structure CacheRow where
  trackId : String
  quality : String
  filePath : String
  sizeBytes : Option Int := none
  extension : Option String := none
  albumId : Option String := none
  coverPath : Option String := none
  deriving DecidableEq, Repr

/-- `normalizeTrackId`: `String(trackId).trim()`. -/
def normalizeTrackId (trackId : String) : String := jsTrim trackId

/-- The second `track_id` comparand of the numeric-OR query: when the
normalized id is a canonical integer string (`Number.isFinite(parseInt(id))
&& String(parseInt(id)) === id`), the numeric parameter — which SQLite
compares against the TEXT column through text affinity, i.e. as
`String(numericId)`. -/
def numericAlias (normalizedId : String) : Option String :=
  match parseIntJS normalizedId with
  | some n => if toString n = normalizedId then some (toString n) else none
  | none => none

/-- `track_id = ? OR track_id = ?` of the cache queries. -/
def rowKeyMatches (rowId normalizedId : String) : Bool :=
  rowId == normalizedId ||
    (match numericAlias normalizedId with
     | some alias0 => rowId == alias0
     | none => false)

/-- The WHERE clause of `checkCache` / `removeFileRecord`. -/
def cacheKeyPred (trackId quality : String) : CacheRow → Bool :=
  fun row =>
    rowKeyMatches row.trackId (normalizeTrackId trackId) &&
      row.quality == quality

/-- `removeFileRecord(trackId, quality)`: DELETE all rows of the key
(errors are caught and logged, so the model is total). -/
def removeFileRecord (rows : List CacheRow) (trackId quality : String) :
    List CacheRow :=
  rows.filter (fun row => !(cacheKeyPred trackId quality row))

/-- `checkCache(trackId, quality)`: look the key up, verify the recorded
file still exists, and on a missing file delete the stale record and
report a miss. -/
def checkCache (rows : List CacheRow) (fsExists : String → Bool)
    (trackId quality : String) : Option String × List CacheRow :=
  match rows.find? (cacheKeyPred trackId quality) with
  | some row =>
    if row.filePath != "" then
      if fsExists row.filePath then (some row.filePath, rows)
      else (none, removeFileRecord rows trackId quality)
    else (none, rows)
  | none => (none, rows)

theorem checkCache_rows_subset (rows : List CacheRow)
    (fsExists : String → Bool) (trackId quality : String) :
    ∀ row ∈ (checkCache rows fsExists trackId quality).2, row ∈ rows := by
  intro row hrow
  unfold checkCache at hrow
  cases hfind : rows.find? (cacheKeyPred trackId quality) with
  | none =>
    simp only [hfind] at hrow
    exact hrow
  | some r =>
    simp only [hfind] at hrow
    by_cases hfp : (r.filePath != "") = true
    · rw [if_pos hfp] at hrow
      by_cases hfs : fsExists r.filePath = true
      · rw [if_pos hfs] at hrow
        exact hrow
      · rw [if_neg hfs] at hrow
        exact (List.mem_filter.mp hrow).1
    · rw [if_neg hfp] at hrow
      exact hrow

/-- C7: `checkCache` returns the recorded path iff a row for the key is
found and its file still exists; when the row is stale (file missing) it
reports a miss, deletes the row, and the immediately following `checkCache`
for the same key finds no row and changes nothing. -/
theorem checkCache_self_healing :
    (∀ (rows : List CacheRow) (fsExists : String → Bool)
        (trackId quality p : String),
      (checkCache rows fsExists trackId quality).1 = some p ↔
        ∃ row, rows.find? (cacheKeyPred trackId quality) = some row ∧
          row.filePath = p ∧ p ≠ "" ∧ fsExists p = true) ∧
    (∀ (rows : List CacheRow) (fsExists : String → Bool)
        (trackId quality : String) (row : CacheRow),
      rows.find? (cacheKeyPred trackId quality) = some row →
      row.filePath ≠ "" → fsExists row.filePath = false →
      (checkCache rows fsExists trackId quality).1 = none ∧
      (checkCache rows fsExists trackId quality).2.find?
        (cacheKeyPred trackId quality) = none ∧
      checkCache (checkCache rows fsExists trackId quality).2 fsExists
          trackId quality =
        (none, (checkCache rows fsExists trackId quality).2)) := by
  constructor
  · intro rows fsExists trackId quality p
    unfold checkCache
    split
    next row heq =>
      by_cases hfp : row.filePath = ""
      · rw [if_neg (show ¬((row.filePath != "") = true) by simp [hfp])]
        apply iff_of_false (by simp)
        rintro ⟨row', hrow', hfp', hne, _⟩
        obtain rfl := Option.some.inj (heq.symm.trans hrow')
        exact hne (by rw [← hfp']; exact hfp)
      · rw [if_pos (show (row.filePath != "") = true by simp [bne_iff_ne, hfp])]
        by_cases hfs : fsExists row.filePath = true
        · rw [if_pos hfs]
          constructor
          · intro h
            have hp : row.filePath = p := by simpa using h
            exact ⟨row, heq, hp, by rw [← hp]; exact hfp,
              by rw [← hp]; exact hfs⟩
          · rintro ⟨row', hrow', hfp', _, _⟩
            obtain rfl := Option.some.inj (heq.symm.trans hrow')
            simp [hfp']
        · rw [if_neg hfs]
          apply iff_of_false (by simp)
          rintro ⟨row', hrow', hfp', _, hfs'⟩
          obtain rfl := Option.some.inj (heq.symm.trans hrow')
          rw [hfp'] at hfs
          exact hfs hfs'
    next heq => simp [heq]
  · intro rows fsExists trackId quality row hfind hfp hfs
    have hres : checkCache rows fsExists trackId quality =
        (none, removeFileRecord rows trackId quality) := by
      unfold checkCache
      split
      next row' heq =>
        obtain rfl := Option.some.inj (hfind.symm.trans heq)
        rw [if_pos (show (row.filePath != "") = true by simp [bne_iff_ne, hfp]),
          if_neg (show ¬ fsExists row.filePath = true by simp [hfs])]
      next heq => simp [hfind] at heq
    have hgone : (removeFileRecord rows trackId quality).find?
        (cacheKeyPred trackId quality) = none := by
      apply List.find?_eq_none.mpr
      intro r hr
      have hmem := List.mem_filter.mp hr
      simpa using hmem.2
    refine ⟨by rw [hres], by rw [hres]; exact hgone, ?_⟩
    rw [hres]
    unfold checkCache
    split
    next row' heq => simp [hgone] at heq
    next heq => rfl

/-- A concrete stale row: its recorded file no longer exists. -/
def staleRow : CacheRow :=
  { trackId := "42", quality := "LOSSLESS", filePath := "/music/a.flac" }

/-- Witness for C7: a one-row index whose file has vanished: the first
`checkCache` misses and purges, the second misses on an unchanged index. -/
theorem checkCache_self_healing_witness :
    (checkCache [staleRow] (fun _ => false) "42" "LOSSLESS").1 = none ∧
    (checkCache [staleRow] (fun _ => false) "42" "LOSSLESS").2.find?
      (cacheKeyPred "42" "LOSSLESS") = none := by
  have h := checkCache_self_healing.2 [staleRow] (fun _ => false) "42"
    "LOSSLESS" staleRow (by decide) (by decide) rfl
  exact ⟨h.1, h.2.1⟩

/-! ## Download orchestration (`DownloadService.downloadTrack`)

One call of `downloadTrack` is modelled as a function of an outcome
environment (`DownloadEnv`) and the server state (ledger, cache rows,
on-disk files).  Everything that can fail between the ledger insert and the
file write — upstream lookup, manifest decoding, DASH assembly, stream
resolution, metadata/image enrichment — is folded into `fetchOutcome`; the
metadata tables live outside the cache index and are not part of the
state.  The destination-path pipeline is verified separately above, so the
chosen path arrives as `resolvedPath`. -/

/-- `sizeBytes || null` (`0` collapses to null). -/
def orNullInt (v : Option Int) : Option Int :=
  match v with
  | some n => if n = 0 then none else some n
  | none => none

/-- `albumId || null` and friends (`""` collapses to null). -/
def orNullStr (v : Option String) : Option String :=
  match v with
  | some s => if s = "" then none else some s
  | none => none

/-- The entry object handed to `saveCache`. -/
structure CacheWrite where
  trackId : String
  quality : String
  filePath : String
  sizeBytes : Option Int := none
  extension : Option String := none
  albumId : Option String := none
  coverPath : Option String := none
  deriving DecidableEq, Repr

/-- The row an upsert writes: normalized track id and the source's
`|| null` coercions on the optional columns. -/
def cacheRowOf (entry : CacheWrite) : CacheRow :=
  { trackId := normalizeTrackId entry.trackId
    quality := entry.quality
    filePath := entry.filePath
    sizeBytes := orNullInt entry.sizeBytes
    extension := orNullStr entry.extension
    albumId := orNullStr entry.albumId
    coverPath := orNullStr entry.coverPath }

/-- `saveCache(entry)`: an INSERT … ON CONFLICT(track_id, quality) DO
UPDATE upsert; any database failure is caught and only logged
(`dbUpsertOk = false` leaves the table untouched and does not raise). -/
def saveCache (rows : List CacheRow) (dbUpsertOk : Bool) (entry : CacheWrite) :
    List CacheRow :=
  if !dbUpsertOk then rows
  else
    if rows.any (fun row =>
        row.trackId == normalizeTrackId entry.trackId &&
        row.quality == entry.quality) then
      rows.map (fun row =>
        if row.trackId == normalizeTrackId entry.trackId &&
            row.quality == entry.quality then cacheRowOf entry
        else row)
    else rows ++ [cacheRowOf entry]

/-- `requestedQuality || 'HI_RES_LOSSLESS'`. -/
def requestedOrDefault (requestedQuality : Option String) : String :=
  match requestedQuality with
  | some q => if q = "" then "HI_RES_LOSSLESS" else q
  | none => "HI_RES_LOSSLESS"

/-- `resolveDownloadQuality`: a configured non-passthrough server quality
overrides the caller's request. -/
def resolveDownloadQuality (preferredQuality requestedQuality : Option String) :
    String :=
  match preferredQuality with
  | some p =>
    if p ≠ "" ∧ p ≠ "player" then p else requestedOrDefault requestedQuality
  | none => requestedOrDefault requestedQuality

/-- `getDownloadKey`. -/
def getDownloadKey (trackId quality : String) : String :=
  trackId ++ "_" ++ quality

/-- The shared mutable server state: the in-flight ledger
(`activeDownloads`), the cache index, and the set of on-disk files. -/
structure ServerState where
  activeDownloads : List String
  rows : List CacheRow
  files : List String
  deriving DecidableEq, Repr

/-- `fs.access`-existence over the modelled disk. -/
def fsExistsIn (files : List String) : String → Bool :=
  fun p => files.contains p

/-- The environment of one `downloadTrack` call. -/
structure DownloadEnv where
  apiInstancesNonempty : Bool
  storageDirOk : Bool
  preferredQuality : Option String := none
  fetchOutcome : Except String (Int × String)
  resolvedPath : String
  writeOk : Bool
  dbUpsertOk : Bool

/-- The errors `downloadTrack` can propagate. -/
inductive DownloadError
  | noInstances
  | storageDirFailed
  | fetchFailed (msg : String)
  | writeFailed
  deriving DecidableEq, Repr

/-- The success results of `downloadTrack`. -/
inductive DlResult
  | downloading
  | cached (path : String)
  | downloaded (path : String) (size : Int)
  deriving DecidableEq, Repr

/-- The body of `downloadTrack` after quality resolution.  The
`try … finally` deletes the download key from the ledger on *every* exit of
the `try` block — including the early `'downloading'` and `'cached'`
returns for which this call never inserted the key. -/
def downloadTrackGo (env : DownloadEnv) (st : ServerState)
    (trackId resolvedQuality : String) :
    Except DownloadError DlResult × ServerState :=
  if st.activeDownloads.contains (getDownloadKey trackId resolvedQuality) then
    (Except.ok DlResult.downloading,
      { st with
          activeDownloads := st.activeDownloads.erase
            (getDownloadKey trackId resolvedQuality) })
  else
    match checkCache st.rows (fsExistsIn st.files) trackId resolvedQuality with
    | (some cachedPath, rows2) =>
      (Except.ok (DlResult.cached cachedPath),
        { st with
            rows := rows2
            activeDownloads := st.activeDownloads.erase
              (getDownloadKey trackId resolvedQuality) })
    | (none, rows2) =>
      match env.fetchOutcome with
      | Except.error msg =>
        (Except.error (DownloadError.fetchFailed msg),
          { st with
              rows := rows2
              activeDownloads :=
                (getDownloadKey trackId resolvedQuality ::
                  st.activeDownloads).erase
                  (getDownloadKey trackId resolvedQuality) })
      | Except.ok (size, ext) =>
        if !env.writeOk then
          (Except.error DownloadError.writeFailed,
            { st with
                rows := rows2
                activeDownloads :=
                  (getDownloadKey trackId resolvedQuality ::
                    st.activeDownloads).erase
                    (getDownloadKey trackId resolvedQuality) })
        else
          (Except.ok (DlResult.downloaded env.resolvedPath size),
            { activeDownloads :=
                (getDownloadKey trackId resolvedQuality ::
                  st.activeDownloads).erase
                  (getDownloadKey trackId resolvedQuality)
              rows := saveCache rows2 env.dbUpsertOk
                { trackId := trackId
                  quality := resolvedQuality
                  filePath := env.resolvedPath
                  sizeBytes := some size
                  extension := some ext }
              files := st.files ++ [env.resolvedPath] })

/-- One sequential run of `downloadTrack(trackId, quality, apiInstances)`:
validate the instance list, ensure the storage directory, resolve the
effective quality, then run the gate/fetch/persist body. -/
def downloadTrack (env : DownloadEnv) (st : ServerState) (trackId : String)
    (quality : Option String) : Except DownloadError DlResult × ServerState :=
  if !env.apiInstancesNonempty then
    (Except.error DownloadError.noInstances, st)
  else if !env.storageDirOk then
    (Except.error DownloadError.storageDirFailed, st)
  else
    downloadTrackGo env st trackId
      (resolveDownloadQuality env.preferredQuality quality)

/-- C8: whenever `downloadTrack` raises — missing instances, storage-dir
failure, any fetch-phase error (upstream exhaustion, malformed response,
manifest error, stream resolution), or a filesystem write failure — the
error is the call's result (it propagates), no file is written, and every
cache row after the call already existed before it: no CacheEntry is
created or updated by the failed attempt (a stale row purged by the
cache-miss check is a deletion, not a write). -/
theorem downloadTrack_failure_atomic (env : DownloadEnv) (st : ServerState)
    (trackId : String) (quality : Option String) (e : DownloadError)
    (st' : ServerState)
    (h : downloadTrack env st trackId quality = (Except.error e, st')) :
    (∀ row ∈ st'.rows, row ∈ st.rows) ∧ st'.files = st.files := by
  unfold downloadTrack at h
  split at h
  · simp only [Prod.mk.injEq] at h
    obtain ⟨-, h2⟩ := h
    subst h2
    exact ⟨fun row hr => hr, rfl⟩
  · split at h
    · simp only [Prod.mk.injEq] at h
      obtain ⟨-, h2⟩ := h
      subst h2
      exact ⟨fun row hr => hr, rfl⟩
    · unfold downloadTrackGo at h
      split at h
      · simp only [Prod.mk.injEq] at h
        exact absurd h.1 (fun hx => Except.noConfusion hx)
      · split at h
        next cachedPath rows2 heq =>
          simp only [Prod.mk.injEq] at h
          exact absurd h.1 (fun hx => Except.noConfusion hx)
        next rows2 heq =>
          have hsub : ∀ row ∈ rows2, row ∈ st.rows := by
            intro row hr
            apply checkCache_rows_subset st.rows (fsExistsIn st.files) trackId
              (resolveDownloadQuality env.preferredQuality quality)
            rw [heq]
            exact hr
          split at h
          · simp only [Prod.mk.injEq] at h
            obtain ⟨-, h2⟩ := h
            subst h2
            exact ⟨hsub, rfl⟩
          · split at h
            · simp only [Prod.mk.injEq] at h
              obtain ⟨-, h2⟩ := h
              subst h2
              exact ⟨hsub, rfl⟩
            · simp only [Prod.mk.injEq] at h
              exact absurd h.1 (fun hx => Except.noConfusion hx)

/-- Witness for C8: a fetch-phase failure (e.g. `InstanceExhausted`) on an
empty server state leaves the index and disk untouched. -/
theorem downloadTrack_failure_atomic_witness :
    (∀ row ∈ (downloadTrack
      { apiInstancesNonempty := true, storageDirOk := true,
        fetchOutcome := Except.error "InstanceExhausted",
        resolvedPath := "/music/x.flac", writeOk := true, dbUpsertOk := true }
      { activeDownloads := [], rows := [], files := [] } "42"
      (some "LOSSLESS")).2.rows, row ∈
        ({ activeDownloads := [], rows := [], files := [] } : ServerState).rows) ∧
    (downloadTrack
      { apiInstancesNonempty := true, storageDirOk := true,
        fetchOutcome := Except.error "InstanceExhausted",
        resolvedPath := "/music/x.flac", writeOk := true, dbUpsertOk := true }
      { activeDownloads := [], rows := [], files := [] } "42"
      (some "LOSSLESS")).2.files =
      ({ activeDownloads := [], rows := [], files := [] } : ServerState).files :=
  downloadTrack_failure_atomic
    { apiInstancesNonempty := true, storageDirOk := true,
      fetchOutcome := Except.error "InstanceExhausted",
      resolvedPath := "/music/x.flac", writeOk := true, dbUpsertOk := true }
    { activeDownloads := [], rows := [], files := [] } "42" (some "LOSSLESS")
    (DownloadError.fetchFailed "InstanceExhausted")
    (downloadTrack
      { apiInstancesNonempty := true, storageDirOk := true,
        fetchOutcome := Except.error "InstanceExhausted",
        resolvedPath := "/music/x.flac", writeOk := true, dbUpsertOk := true }
      { activeDownloads := [], rows := [], files := [] } "42"
      (some "LOSSLESS")).2
    (Prod.ext (by decide) rfl)

/-- C9: `saveCache` is total — a database upsert failure is caught and only
logged — so a download whose cache-metadata write fails still completes:
`downloadTrack` reports `downloaded`, the file is on disk, and the index
gained no row for it (the rows are exactly the cache-check's output, a
subset of the original rows). -/
theorem saveCache_failure_still_downloaded :
    (∀ (rows : List CacheRow) (entry : CacheWrite),
      saveCache rows false entry = rows) ∧
    (∀ (env : DownloadEnv) (st : ServerState) (trackId : String)
        (quality : Option String) (size : Int) (ext : String),
      env.apiInstancesNonempty = true → env.storageDirOk = true →
      st.activeDownloads.contains
        (getDownloadKey trackId
          (resolveDownloadQuality env.preferredQuality quality)) = false →
      (checkCache st.rows (fsExistsIn st.files) trackId
        (resolveDownloadQuality env.preferredQuality quality)).1 = none →
      env.fetchOutcome = Except.ok (size, ext) →
      env.writeOk = true → env.dbUpsertOk = false →
      (downloadTrack env st trackId quality).1 =
        Except.ok (DlResult.downloaded env.resolvedPath size) ∧
      (downloadTrack env st trackId quality).2.files =
        st.files ++ [env.resolvedPath] ∧
      (downloadTrack env st trackId quality).2.rows =
        (checkCache st.rows (fsExistsIn st.files) trackId
          (resolveDownloadQuality env.preferredQuality quality)).2 ∧
      (∀ row ∈ (downloadTrack env st trackId quality).2.rows,
        row ∈ st.rows)) := by
  constructor
  · intro rows entry
    rfl
  · intro env st trackId quality size ext hA hS hActive hMiss hF hW hDb
    have hpair : checkCache st.rows (fsExistsIn st.files) trackId
        (resolveDownloadQuality env.preferredQuality quality) =
        (none, (checkCache st.rows (fsExistsIn st.files) trackId
          (resolveDownloadQuality env.preferredQuality quality)).2) := by
      rw [← hMiss]
    have hrun : downloadTrack env st trackId quality =
        (Except.ok (DlResult.downloaded env.resolvedPath size),
          { activeDownloads :=
              ((getDownloadKey trackId
                  (resolveDownloadQuality env.preferredQuality quality)) ::
                st.activeDownloads).erase
                (getDownloadKey trackId
                  (resolveDownloadQuality env.preferredQuality quality)),
            rows := (checkCache st.rows (fsExistsIn st.files) trackId
              (resolveDownloadQuality env.preferredQuality quality)).2,
            files := st.files ++ [env.resolvedPath] }) := by
      unfold downloadTrack
      rw [if_neg (show ¬((!env.apiInstancesNonempty) = true) by
          rw [hA]; decide),
        if_neg (show ¬((!env.storageDirOk) = true) by rw [hS]; decide)]
      unfold downloadTrackGo
      rw [if_neg (show ¬(st.activeDownloads.contains
          (getDownloadKey trackId
            (resolveDownloadQuality env.preferredQuality quality)) = true) by
          rw [hActive]; decide)]
      split
      next cachedPath rows2 heq =>
        rw [hpair] at heq
        simp at heq
      next rows2 heq =>
        have hr2 : rows2 = (checkCache st.rows (fsExistsIn st.files) trackId
            (resolveDownloadQuality env.preferredQuality quality)).2 := by
          rw [hpair] at heq
          exact (Prod.mk.injEq _ _ _ _ ▸ heq).2.symm
        split
        next msg heqF =>
          rw [hF] at heqF
          simp at heqF
        next size2 ext2 heqF =>
          rw [hF] at heqF
          simp only [Except.ok.injEq, Prod.mk.injEq] at heqF
          obtain ⟨rfl, rfl⟩ := heqF
          rw [if_neg (show ¬((!env.writeOk) = true) by rw [hW]; decide)]
          rw [hDb, hr2]
          rfl
    refine ⟨by rw [hrun], by rw [hrun], by rw [hrun], ?_⟩
    rw [hrun]
    intro row hr
    exact checkCache_rows_subset st.rows (fsExistsIn st.files) trackId
      (resolveDownloadQuality env.preferredQuality quality) row hr

/-- Witness for C9: everything succeeds except the database upsert: the
call still reports `downloaded`, the file is on disk, and the index stays
empty. -/
theorem saveCache_failure_still_downloaded_witness :
    (downloadTrack
      { apiInstancesNonempty := true, storageDirOk := true,
        fetchOutcome := Except.ok (7, "flac"),
        resolvedPath := "/music/y.flac", writeOk := true, dbUpsertOk := false }
      { activeDownloads := [], rows := [], files := [] } "42"
      (some "LOSSLESS")).1 =
      Except.ok (DlResult.downloaded "/music/y.flac" 7) ∧
    (downloadTrack
      { apiInstancesNonempty := true, storageDirOk := true,
        fetchOutcome := Except.ok (7, "flac"),
        resolvedPath := "/music/y.flac", writeOk := true, dbUpsertOk := false }
      { activeDownloads := [], rows := [], files := [] } "42"
      (some "LOSSLESS")).2.files = [] ++ ["/music/y.flac"] := by
  have h := saveCache_failure_still_downloaded.2
    { apiInstancesNonempty := true, storageDirOk := true,
      fetchOutcome := Except.ok (7, "flac"),
      resolvedPath := "/music/y.flac", writeOk := true, dbUpsertOk := false }
    { activeDownloads := [], rows := [], files := [] } "42" (some "LOSSLESS")
    7 "flac" rfl rfl (by decide) (by decide) rfl rfl rfl
  exact ⟨h.1, h.2.1⟩

/-! ## The dedup gate under concurrency (C1)

Each concurrent `downloadTrack` call is a process working on a download
key.  Suspension points (`await`s) separate the gate region from the fetch,
so a scheduler may interleave processes.  The gate region — the
already-downloading check, the cache check, and the ledger insert — is
modelled as ONE atomic step, which is *coarser* than the real code (whose
cache check is itself an `await`): any interleaving of this model is also
an interleaving of the real code, so a dedup violation exhibited here is a
violation of the real code a fortiori.  The `finally` clause runs on every
exit of the `try` block, exactly as in `downloadTrackGo` above. -/

/-- Where a process is in its `downloadTrack` call. -/
inductive ProcPhase
  | ready
  | fetching
  | doneDownloading
  | doneCached
  | doneDownloaded
  | doneFailed
  deriving DecidableEq, Repr

/-- The shared state plus each process's (key, phase). -/
structure ConcState where
  ledger : List String
  cachedKeys : List String
  procs : List (String × ProcPhase)
  deriving DecidableEq, Repr

/-- Run the gate region of process `i` (lines 631-655 of the orchestrator
plus the `finally`): a key already in the ledger returns `'downloading'`
and the `finally` erases the key — even though this call never inserted
it; a cache hit returns `'cached'` (the `finally`'s erase is a no-op there,
the key not being in the ledger); otherwise the key is inserted and the
fetch begins. -/
def gateStep (s : ConcState) (i : Nat) : ConcState :=
  match s.procs[i]? with
  | some (key, ProcPhase.ready) =>
    if s.ledger.contains key then
      { s with procs := s.procs.set i (key, ProcPhase.doneDownloading)
               ledger := s.ledger.erase key }
    else if s.cachedKeys.contains key then
      { s with procs := s.procs.set i (key, ProcPhase.doneCached)
               ledger := s.ledger.erase key }
    else
      { s with procs := s.procs.set i (key, ProcPhase.fetching)
               ledger := key :: s.ledger }
  | _ => s

/-- Complete process `i`'s fetch attempt: on success the file and cache row
exist and `'downloaded'` is returned, on failure the error propagates; the
`finally` erases the ledger key in both cases. -/
def finishStep (s : ConcState) (i : Nat) (success : Bool) : ConcState :=
  match s.procs[i]? with
  | some (key, ProcPhase.fetching) =>
    { s with
        procs := s.procs.set i
          (key, if success then ProcPhase.doneDownloaded
            else ProcPhase.doneFailed)
        ledger := s.ledger.erase key
        cachedKeys := if success then key :: s.cachedKeys else s.cachedKeys }
  | _ => s

/-- The start state of the C1 scenario: three concurrent calls for the same
key on an empty cache and empty ledger. -/
def c1Start : ConcState :=
  { ledger := []
    cachedKeys := []
    procs := [("track1_LOSSLESS", ProcPhase.ready),
      ("track1_LOSSLESS", ProcPhase.ready),
      ("track1_LOSSLESS", ProcPhase.ready)] }

/-- C1: the dedup invariant is violated.  Three concurrent `downloadTrack`
calls for the same key in the same miss window: call 0 confirms the miss
and inserts the key; call 1 then observes `'downloading'` — and its
`finally` deletes call 0's ledger entry, even though call 0's fetch is
still in flight; call 2 then finds neither a ledger entry nor a cache row
and starts a second physical fetch.  So (a) the key does NOT remain in the
ledger until the owner's fetch completes, and (b) among the three calls two
perform the physical fetch while only one observes `'downloading'`,
contradicting the claimed exactly-one-fetch guarantee. -/
theorem dedup_gate_double_fetch :
    (gateStep c1Start 0).procs =
      [("track1_LOSSLESS", ProcPhase.fetching),
        ("track1_LOSSLESS", ProcPhase.ready),
        ("track1_LOSSLESS", ProcPhase.ready)] ∧
    (gateStep c1Start 0).ledger = ["track1_LOSSLESS"] ∧
    (gateStep (gateStep c1Start 0) 1).procs =
      [("track1_LOSSLESS", ProcPhase.fetching),
        ("track1_LOSSLESS", ProcPhase.doneDownloading),
        ("track1_LOSSLESS", ProcPhase.ready)] ∧
    (gateStep (gateStep c1Start 0) 1).ledger = [] ∧
    (gateStep (gateStep (gateStep c1Start 0) 1) 2).procs =
      [("track1_LOSSLESS", ProcPhase.fetching),
        ("track1_LOSSLESS", ProcPhase.doneDownloading),
        ("track1_LOSSLESS", ProcPhase.fetching)] ∧
    (gateStep (gateStep (gateStep c1Start 0) 1) 2).ledger =
      ["track1_LOSSLESS"] := by
  decide

end Monochrome
